import Mathlib

/-!
Shallow embedding of the joystick / selection logic of `src/main.js`
(3D desert environment demo): the touch-joystick state machine, the
camera-movement step of `animate`, the hover/selection raycast engine,
and the spin-toggle handler.  Pixel coordinates and vector components
are modelled as real numbers; object and pointer identities as naturals.
-/

namespace Kyson

noncomputable section

/-- `Math.atan2 y x`, modelled as the argument of the complex number `x + y·i`. -/
def atan2 (y x : ℝ) : ℝ := Complex.arg ⟨x, y⟩

/-- Euclidean length of a 2D vector, as computed by
`Math.sqrt(dx * dx + dy * dy)` in the touchmove handler. -/
def len2 (p : ℝ × ℝ) : ℝ := Real.sqrt (p.1 * p.1 + p.2 * p.2)

/-! ## Joystick state machine (`src/main.js` lines 258–336) -/

/-- The mutable joystick variables: `joystickPointerId`, `joystickCenter`,
`joystickPos` (the stored clamped offset) and `joystickVector`
(the DirectionVector). -/
structure JoyState where
  pointerId : Option ℕ
  center : ℝ × ℝ
  pos : ℝ × ℝ
  vec : ℝ × ℝ

/-- Initial values of the joystick variables (lines 263–266). -/
def joyInit : JoyState :=
  { pointerId := none, center := (0, 0), pos := (0, 0), vec := (0, 0) }

/-- One entry of `event.changedTouches`: identifier and client coordinates. -/
structure Touch where
  id : ℕ
  x : ℝ
  y : ℝ

/-- `setJoystickPosition(x, y)` (lines 268–276): recomputes the center from
the base element's bounding rect (an external input `c`), sets
`joystickPointerId = null`, and stores `(x, y)` into `joystickPos`. -/
def setJoystickPosition (c : ℝ × ℝ) (x y : ℝ) (s : JoyState) : JoyState :=
  { s with center := c, pointerId := none, pos := (x, y) }

/-- The `touchstart` handler (lines 278–283): if a pointer is already active
it returns immediately; otherwise it records `changedTouches[0].identifier`
and calls `setJoystickPosition(0, 0)`. -/
def touchstart (c : ℝ × ℝ) (t : Touch) (s : JoyState) : JoyState :=
  if s.pointerId ≠ none then s
  else setJoystickPosition c 0 0 { s with pointerId := some t.id }

/-- Body of the `touchmove` handler for the matching touch (lines 289–309):
raw offset from the stored center, polar clamping to `joystickRadius = R`
when the distance exceeds it, and derivation of the DirectionVector. -/
def applyMove (R : ℝ) (t : Touch) (s : JoyState) : JoyState :=
  let deltaX := t.x - s.center.1
  let deltaY := t.y - s.center.2
  let distance := Real.sqrt (deltaX * deltaX + deltaY * deltaY)
  let clampedX := if distance > R then Real.cos (atan2 deltaY deltaX) * R else deltaX
  let clampedY := if distance > R then Real.sin (atan2 deltaY deltaX) * R else deltaY
  { s with pos := (clampedX, clampedY), vec := (clampedX / R, clampedY / R) }

/-- The `touchmove` handler (lines 285–313): no-op when no pointer is active,
otherwise it scans `changedTouches` for the touch whose identifier matches
the active pointer and processes the first such touch. -/
def touchmove (R : ℝ) (ts : List Touch) (s : JoyState) : JoyState :=
  if s.pointerId = none then s
  else
    match ts.find? (fun t => some t.id = s.pointerId) with
    | none => s
    | some t => applyMove R t s

/-- The `touchend` handler (lines 315–327): if some changed touch matches the
active pointer, clear the pointer and zero the offset and the vector. -/
def touchendH (ts : List Touch) (s : JoyState) : JoyState :=
  match ts.find? (fun t => some t.id = s.pointerId) with
  | none => s
  | some _ => { s with pointerId := none, pos := (0, 0), vec := (0, 0) }

/-- The `touchcancel` handler (lines 329–336): unconditionally clear the
pointer and zero the offset and the vector. -/
def touchcancel (s : JoyState) : JoyState :=
  { s with pointerId := none, pos := (0, 0), vec := (0, 0) }

/-- A joystick DOM event. A `start` event carries the first changed touch and
the current center of the base element's bounding rect. -/
inductive JEvent where
  | start (c : ℝ × ℝ) (t : Touch)
  | move (ts : List Touch)
  | lift (ts : List Touch)
  | cancel

/-- Dispatch one joystick event to its handler. -/
def jstep (R : ℝ) (s : JoyState) (e : JEvent) : JoyState :=
  match e with
  | .start c t => touchstart c t s
  | .move ts => touchmove R ts s
  | .lift ts => touchendH ts s
  | .cancel => touchcancel s

/-- Run a sequence of joystick events from the initial state. -/
def jrun (R : ℝ) (evs : List JEvent) : JoyState :=
  evs.foldl (jstep R) joyInit

/-! ## Camera movement step of `animate` (`src/main.js` lines 347–366) -/

/-- A three.js `Vector3`. -/
structure Vec3 where
  x : ℝ
  y : ℝ
  z : ℝ

/-- `Vector3.length()`. -/
def vlen (v : Vec3) : ℝ := Real.sqrt (v.x * v.x + v.y * v.y + v.z * v.z)

/-- `Vector3.normalize()`, which divides by `length() || 1`
(a zero vector is left unchanged). -/
def vnormalize (v : Vec3) : Vec3 :=
  let d := if vlen v = 0 then 1 else vlen v
  ⟨v.x / d, v.y / d, v.z / d⟩

/-- `Vector3.crossVectors(a, b)`. -/
def vcross (a b : Vec3) : Vec3 :=
  ⟨a.y * b.z - a.z * b.y, a.z * b.x - a.x * b.z, a.x * b.y - a.y * b.x⟩

/-- `Vector3.addScaledVector(v, s)` applied to `p`. -/
def addScaled (p v : Vec3) (s : ℝ) : Vec3 :=
  ⟨p.x + v.x * s, p.y + v.y * s, p.z + v.z * s⟩

/-- `moveSpeed` (line 359). -/
def moveSpeed : ℝ := 0.15

/-- Body of the joystick-movement block (lines 349–365): `dir` is the result
of `camera.getWorldDirection`, `up` is `camera.up`, `v` is `joystickVector`.
Forward gets its `y` zeroed and is renormalized, right is the normalized
cross of up and forward, the position is displaced along both, then the
height is clamped to the floor. -/
def applyMovement (pos up dir : Vec3) (v : ℝ × ℝ) : Vec3 :=
  let forward := vnormalize ⟨dir.x, 0, dir.z⟩
  let right := vnormalize (vcross up forward)
  let p1 := addScaled pos forward (-v.2 * moveSpeed)
  let p2 := addScaled p1 right (v.1 * moveSpeed)
  if p2.y < 1.2 then ⟨p2.x, 1.2, p2.z⟩ else p2

/-- The guarded movement step (line 347): the block body runs only when
`joystickVector` is nonzero. -/
def frameMove (pos up dir : Vec3) (v : ℝ × ℝ) : Vec3 :=
  if v.1 ≠ 0 ∨ v.2 ≠ 0 then applyMovement pos up dir v else pos

/-- Spec-worded definition (§4.1 `applyMovement`): "compute camera forward
direction (world-space, y-component zeroed, renormalized)". -/
def forwardDirSpec (dir : Vec3) : Vec3 := vnormalize ⟨dir.x, 0, dir.z⟩

/-- Spec-worded definition (§4.1 `applyMovement`): "right direction (cross of
camera up and forward, renormalized)". -/
def rightDirSpec (up dir : Vec3) : Vec3 := vnormalize (vcross up (forwardDirSpec dir))

/-- Spec-worded definition (§4.1 `applyMovement`): "clamp camera height to a
minimum floor value after the move". -/
def clampFloorSpec (p : Vec3) : Vec3 := if p.y < 1.2 then ⟨p.x, 1.2, p.z⟩ else p

/-- A concrete joystick state with an active pointer, used by witnesses. -/
def joyActive : JoyState :=
  { pointerId := some 0, center := (0, 0), pos := (0, 0), vec := (0, 0) }

/-- The 45° touch of the spec scenario: raw offset (√2, √2) of length 2,
twice the witness radius 1. -/
def joyTouch45 : Touch := ⟨0, Real.sqrt 2, Real.sqrt 2⟩

end

/-! ## Hover / selection engine (`src/main.js` lines 374–397, 413–445) -/

/-- The emissive colors the program ever writes: `0x000000` and `'turquoise'`. -/
inductive EColor where
  | black
  | turquoise
  deriving DecidableEq, Repr

/-- The highlight-relevant part of a `MeshStandardMaterial`: emissive color
and `emissiveIntensity`. -/
structure Mat where
  emissive : EColor
  intensity : ℚ
  deriving DecidableEq, Repr

/-- Cleared highlight: `emissive.set(0x000000); emissiveIntensity = 0`. -/
def clearMat : Mat := ⟨.black, 0⟩

/-- Hover highlight: `emissive.set('turquoise'); emissiveIntensity = 0.6`
(lines 387–388). -/
def hoverMat : Mat := ⟨.turquoise, 0.6⟩

/-- Selected highlight: `emissive.set('turquoise'); emissiveIntensity = 1`
(lines 421–422). -/
def selMat : Mat := ⟨.turquoise, 1⟩

/-- Selection-engine state: each object's material (indexed by object id),
`hoveredObject` and `selectedObject`. -/
structure SelState where
  mats : ℕ → Mat
  hovered : Option ℕ
  selected : Option ℕ

/-- The shared clearing step `x.material.emissive.set(0x000000);
x.material.emissiveIntensity = 0` applied to an optional object. -/
def clearOpt (m : ℕ → Mat) : Option ℕ → ℕ → Mat
  | some j => Function.update m j clearMat
  | none => m

/-- The tap/click selection handler (lines 413–428 and 431–445, identical):
if an object is hovered and differs from the selection, clear the old
selection's highlight, select the hovered object and apply the selected
highlight; if nothing is hovered and something is selected, clear and
deselect; otherwise do nothing. -/
def tapStep (s : SelState) : SelState :=
  match s.hovered with
  | some h =>
    if s.selected = some h then s
    else
      { mats := Function.update (clearOpt s.mats s.selected) h selMat,
        hovered := s.hovered, selected := some h }
  | none =>
    match s.selected with
    | some j =>
      { mats := Function.update s.mats j clearMat, hovered := none, selected := none }
    | none => s

/-- The guarded clearing of the previous hover highlight, duplicated in the
source at lines 381–384 and 392–395:
`if (hoveredObject && hoveredObject !== selectedObject) { reset emissive }`. -/
def clearHovered (s : SelState) : ℕ → Mat :=
  match s.hovered with
  | some h => if s.selected ≠ some h then Function.update s.mats h clearMat else s.mats
  | none => s.mats

/-- The per-frame hover block (lines 378–397): `ray` is the id of the nearest
intersected object, if any. On a new intersected object, the previous
hovered object's highlight is cleared unless it is the selected object,
and the hover highlight is applied to the new one unless it is the
selected object. On no intersection, the hovered highlight is cleared
under the same guard and `hoveredObject` becomes `null`. -/
def frameStep (ray : Option ℕ) (s : SelState) : SelState :=
  match ray with
  | some i =>
    if s.hovered = some i then s
    else
      { mats := if s.selected ≠ some i then Function.update (clearHovered s) i hoverMat
          else clearHovered s,
        hovered := some i, selected := s.selected }
  | none =>
    { mats := clearHovered s, hovered := none, selected := s.selected }

/-- A selection-engine event: one animation frame (with the raycast result
as external input) or one tap/click. -/
inductive SEvent where
  | frame (ray : Option ℕ)
  | tap
  deriving DecidableEq, Repr

/-- Dispatch one selection event. -/
def selStep (s : SelState) (e : SEvent) : SelState :=
  match e with
  | .frame ray => frameStep ray s
  | .tap => tapStep s

/-- Run a sequence of selection events from the initial state
(`hoveredObject = null`, `selectedObject = null`, materials `m0`). -/
def selRun (m0 : ℕ → Mat) (evs : List SEvent) : SelState :=
  evs.foldl selStep { mats := m0, hovered := none, selected := none }

/-! ## Spin toggle and per-frame spin (`src/main.js` lines 202–216, 368–372) -/

/-- `objects.find((o) => o.name === objName)`, keeping only the object id. -/
def findByName (objs : List (ℕ × String)) (name : String) : Option ℕ :=
  (objs.find? (fun o => o.2 = name)).map (fun o => o.1)

/-- The toggle-spin click handler (lines 202–216): no-op on an empty
selection value or an unknown name; otherwise remove the found object from
`spinningObjects` if present, else insert it. -/
def toggleSpin (objs : List (ℕ × String)) (name : String) (sp : Finset ℕ) : Finset ℕ :=
  if name = "" then sp
  else
    match findByName objs name with
    | none => sp
    | some o => if o ∈ sp then sp.erase o else insert o sp

/-- The pose of a scene object: position, the three Euler rotation
components, and its material. -/
structure Obj3 where
  posX : ℚ
  posY : ℚ
  posZ : ℚ
  rotX : ℚ
  rotY : ℚ
  rotZ : ℚ
  material : Mat
  deriving DecidableEq, Repr

/-- The per-frame spin block (lines 368–372): every object in
`spinningObjects` gets `rotation.y += delta * 0.2`; all others are
untouched. -/
def spinStep (delta : ℚ) (sp : Finset ℕ) (objs : ℕ → Obj3) : ℕ → Obj3 :=
  fun i => if i ∈ sp then { objs i with rotY := (objs i).rotY + delta * 0.2 } else objs i

/-! ## Invariants -/

/-- Run-time invariant of the joystick state: no active pointer and a zero
DirectionVector. -/
def JoyInv (s : JoyState) : Prop := s.pointerId = none ∧ s.vec = (0, 0)

/-- Run-time invariant of the selection engine: the selected object, if any,
carries exactly the selected-intensity highlight. -/
def SelInv (s : SelState) : Prop := ∀ j, s.selected = some j → s.mats j = selMat

/-! ## Helper lemmas -/

/-- The selected object's material is untouched by the hover-clearing step. -/
theorem clearHovered_sel (s : SelState) (o : ℕ) (h : s.selected = some o) :
    clearHovered s o = s.mats o := by
  unfold clearHovered
  cases hh : s.hovered with
  | none => rfl
  | some hv =>
    by_cases he : s.selected ≠ some hv
    · have ho : o ≠ hv := by
        rintro rfl
        exact he h
      simp [he, Function.update_noteq ho]
    · simp [he]

/-- The per-frame hover block never changes `selectedObject`. -/
theorem frameStep_selected (ray : Option ℕ) (s : SelState) :
    (frameStep ray s).selected = s.selected := by
  cases ray with
  | none => rfl
  | some i =>
    by_cases hh : s.hovered = some i
    · simp [frameStep, hh]
    · simp [frameStep, hh]

/-- The per-frame hover block never changes the selected object's material. -/
theorem frameStep_mats_sel (ray : Option ℕ) (s : SelState) (o : ℕ)
    (h : s.selected = some o) : (frameStep ray s).mats o = s.mats o := by
  cases ray with
  | none => simpa [frameStep] using clearHovered_sel s o h
  | some i =>
    by_cases hh : s.hovered = some i
    · simp [frameStep, hh]
    · by_cases he : s.selected ≠ some i
      · have ho : o ≠ i := by
          rintro rfl
          exact he h
        simp [frameStep, hh, he, Function.update_noteq ho, clearHovered_sel s o h]
      · simp [frameStep, hh, he, clearHovered_sel s o h]

/-- The tap/click handler preserves the selection invariant. -/
theorem tapStep_inv (s : SelState) (h : SelInv s) : SelInv (tapStep s) := by
  intro j hj
  cases hh : s.hovered with
  | some hv =>
    by_cases he : s.selected = some hv
    · have ht : tapStep s = s := by simp [tapStep, hh, he]
      rw [ht] at hj ⊢
      exact h j hj
    · have ht : tapStep s =
          { mats := Function.update (clearOpt s.mats s.selected) hv selMat,
            hovered := some hv, selected := some hv } := by
        simp [tapStep, hh, he]
      rw [ht] at hj ⊢
      obtain rfl : hv = j := by simpa using hj
      simp
  | none =>
    cases hs : s.selected with
    | some j' =>
      have ht : tapStep s =
          { mats := Function.update s.mats j' clearMat, hovered := none, selected := none } := by
        simp [tapStep, hh, hs]
      rw [ht] at hj
      simp at hj
    | none =>
      have ht : tapStep s = s := by simp [tapStep, hh, hs]
      rw [ht] at hj ⊢
      exact h j hj

/-- The per-frame hover block preserves the selection invariant. -/
theorem frameStep_inv (ray : Option ℕ) (s : SelState) (h : SelInv s) :
    SelInv (frameStep ray s) := by
  intro j hj
  rw [frameStep_selected] at hj
  rw [frameStep_mats_sel ray s j hj]
  exact h j hj

/-- Every selection-engine state reachable from the initial state satisfies
the selection invariant. -/
theorem selRun_inv (m0 : ℕ → Mat) (evs : List SEvent) : SelInv (selRun m0 evs) := by
  suffices hgen : ∀ (l : List SEvent) (s : SelState), SelInv s → SelInv (l.foldl selStep s) by
    refine hgen evs _ ?_
    intro j hj
    simp at hj
  intro l
  induction l with
  | nil => intro s hs; exact hs
  | cons e l ih =>
    intro s hs
    refine ih (selStep s e) ?_
    cases e with
    | frame ray => exact frameStep_inv ray s hs
    | tap => exact tapStep_inv s hs

/-- Every joystick event preserves the joystick invariant. -/
theorem jstep_inv (R : ℝ) (e : JEvent) (s : JoyState) (h : JoyInv s) :
    JoyInv (jstep R s e) := by
  obtain ⟨h1, h2⟩ := h
  cases e with
  | start c t =>
    refine ⟨?_, ?_⟩ <;> simp [jstep, touchstart, setJoystickPosition, h1, h2]
  | move ts => simpa [jstep, touchmove, h1] using ⟨h1, h2⟩
  | lift ts =>
    have hfind : ts.find? (fun t => some t.id = s.pointerId) = none := by
      rw [List.find?_eq_none]
      intro t _
      simp [h1]
    simpa [jstep, touchendH, hfind] using ⟨h1, h2⟩
  | cancel => exact ⟨rfl, rfl⟩

/-- Every joystick state reachable from the initial state satisfies the
joystick invariant. -/
theorem jrun_inv (R : ℝ) (evs : List JEvent) : JoyInv (jrun R evs) := by
  suffices hgen : ∀ (l : List JEvent) (s : JoyState), JoyInv s → JoyInv (l.foldl (jstep R) s) by
    exact hgen evs joyInit ⟨rfl, rfl⟩
  intro l
  induction l with
  | nil => intro s hs; exact hs
  | cons e l ih => intro s hs; exact ih (jstep R s e) (jstep_inv R e s hs)

/-! ## Claims -/

/-- C8: a `touchstart` event arriving while a pointer is already active
(`joystickPointerId` non-null) leaves the entire joystick state — pointer
id, stored offset and DirectionVector — unchanged. -/
theorem touchstart_active_noop (R : ℝ) (c : ℝ × ℝ) (t : Touch) (s : JoyState)
    (h : s.pointerId ≠ none) : jstep R s (JEvent.start c t) = s := by
  simp [jstep, touchstart, h]

/-- Witness for C8 at a concrete active-pointer state. -/
theorem touchstart_active_noop_witness :
    jstep 1 { pointerId := some 0, center := (0, 0), pos := (0, 0), vec := (0, 0) }
        (JEvent.start (0, 0) ⟨1, 5, 7⟩) =
      { pointerId := some 0, center := (0, 0), pos := (0, 0), vec := (0, 0) } :=
  touchstart_active_noop 1 (0, 0) ⟨1, 5, 7⟩ _ (by simp)

/-- C4: after any movement application by the joystick mapper, the camera
height is at least the configured floor 1.2, for every starting position,
up vector, world direction and DirectionVector. -/
theorem applyMovement_height_floor (pos up dir : Vec3) (v : ℝ × ℝ) :
    1.2 ≤ (applyMovement pos up dir v).y := by
  simp only [applyMovement]
  split
  · rfl
  · linarith [not_lt.mp (by assumption : ¬ _ < (1.2 : ℝ))]

/-- C10: the per-frame spin step changes only `rotation.y` of the objects in
the spinning set: positions, materials and `rotation.x`/`rotation.z` of all
objects are untouched, and every non-spinning object is entirely
untouched. -/
theorem spinStep_frame (delta : ℚ) (sp : Finset ℕ) (objs : ℕ → Obj3) (i : ℕ) :
    ((spinStep delta sp objs i).posX = (objs i).posX ∧
      (spinStep delta sp objs i).posY = (objs i).posY ∧
      (spinStep delta sp objs i).posZ = (objs i).posZ ∧
      (spinStep delta sp objs i).rotX = (objs i).rotX ∧
      (spinStep delta sp objs i).rotZ = (objs i).rotZ ∧
      (spinStep delta sp objs i).material = (objs i).material) ∧
    (i ∉ sp → spinStep delta sp objs i = objs i) := by
  unfold spinStep
  constructor
  · split <;> simp
  · intro h
    simp [h]

/-- Witness for C10 at a concrete non-spinning object. -/
theorem spinStep_frame_witness :
    (0 ∉ (∅ : Finset ℕ)) ∧
      spinStep 1 ∅ (fun _ => ⟨0, 0, 0, 0, 0, 0, clearMat⟩) 0 = ⟨0, 0, 0, 0, 0, 0, clearMat⟩ :=
  ⟨by decide, (spinStep_frame 1 ∅ (fun _ => ⟨0, 0, 0, 0, 0, 0, clearMat⟩) 0).2 (by decide)⟩

/-- C9: toggling spin twice with the same name restores the spinning set
exactly, and one toggle never changes any other object's membership. -/
theorem toggleSpin_involution (objs : List (ℕ × String)) (name : String) (sp : Finset ℕ) :
    toggleSpin objs name (toggleSpin objs name sp) = sp ∧
    (∀ o x, findByName objs name = some o → x ≠ o →
      (x ∈ toggleSpin objs name sp ↔ x ∈ sp)) := by
  by_cases hn : name = ""
  · simp [toggleSpin, hn]
  · cases hf : findByName objs name with
    | none => simp [toggleSpin, hn, hf]
    | some o =>
      constructor
      · by_cases ho : o ∈ sp
        · simp [toggleSpin, hn, hf, ho, Finset.not_mem_erase, Finset.insert_erase ho]
        · simp [toggleSpin, hn, hf, ho, Finset.erase_insert ho]
      · intro o' x hf' hx
        obtain rfl : o = o' := Option.some.inj hf'
        by_cases ho : o ∈ sp
        · simp [toggleSpin, hn, hf, ho, Finset.mem_erase, hx]
        · simp [toggleSpin, hn, hf, ho, Finset.mem_insert, hx]

/-- Witness for C9 on a concrete one-object registry. -/
theorem toggleSpin_involution_witness :
    toggleSpin [(0, "a")] "a" (toggleSpin [(0, "a")] "a" ∅) = ∅ ∧
      (1 ∈ toggleSpin [(0, "a")] "a" ∅ ↔ 1 ∈ (∅ : Finset ℕ)) :=
  ⟨(toggleSpin_involution [(0, "a")] "a" ∅).1,
    (toggleSpin_involution [(0, "a")] "a" ∅).2 0 1 rfl (by decide)⟩

/-- C5: on a tap/click, a hovered object different from the selection becomes
the selection with the full-intensity highlight while the old selection is
cleared; no hover with an existing selection clears and empties the
selection; a hovered object equal to the selection changes nothing. -/
theorem tapStep_cases (s : SelState) :
    (∀ h, s.hovered = some h → s.selected ≠ some h →
      (tapStep s).selected = some h ∧ (tapStep s).hovered = s.hovered ∧
      (tapStep s).mats h = selMat ∧
      ∀ j, s.selected = some j → (tapStep s).mats j = clearMat) ∧
    (∀ j, s.hovered = none → s.selected = some j →
      (tapStep s).selected = none ∧ (tapStep s).mats j = clearMat) ∧
    (∀ h, s.hovered = some h → s.selected = some h → tapStep s = s) := by
  refine ⟨?_, ?_, ?_⟩
  · intro h hh hs
    have ht : tapStep s =
        { mats := Function.update (clearOpt s.mats s.selected) h selMat,
          hovered := some h, selected := some h } := by
      simp [tapStep, hh, hs]
    rw [ht]
    refine ⟨rfl, hh.symm, by simp, ?_⟩
    intro j hj
    have hjh : j ≠ h := by
      rintro rfl
      exact hs hj
    simp [Function.update_noteq hjh, hj, clearOpt]
  · intro j hh hs
    have ht : tapStep s =
        { mats := Function.update s.mats j clearMat, hovered := none, selected := none } := by
      simp [tapStep, hh, hs]
    rw [ht]
    exact ⟨rfl, by simp⟩
  · intro h hh hs
    simp [tapStep, hh, hs]

/-- Witness for C5: selecting object 1 while object 0 is selected. -/
theorem tapStep_cases_witness :
    (tapStep ⟨fun _ => clearMat, some 1, some 0⟩).selected = some 1 ∧
      (tapStep ⟨fun _ => clearMat, some 1, some 0⟩).mats 1 = selMat ∧
      (tapStep ⟨fun _ => clearMat, some 1, some 0⟩).mats 0 = clearMat := by
  obtain ⟨h1, -, h3, h4⟩ :=
    (tapStep_cases ⟨fun _ => clearMat, some 1, some 0⟩).1 1 rfl (by simp)
  exact ⟨h1, h3, h4 0 rfl⟩

/-- C7: a frame tick never changes the selection nor the selected object's
highlight, whatever the raycast result: the transition selected→hovered
cannot occur. -/
theorem frameTick_keeps_selected (ray : Option ℕ) (s : SelState) (o : ℕ)
    (h : s.selected = some o) :
    (frameStep ray s).selected = s.selected ∧ (frameStep ray s).mats o = s.mats o :=
  ⟨frameStep_selected ray s, frameStep_mats_sel ray s o h⟩

/-- Witness for C7: the ray enters object 1 while object 0 is selected. -/
theorem frameTick_keeps_selected_witness :
    (frameStep (some 1) ⟨fun _ => clearMat, none, some 0⟩).selected = some 0 ∧
      (frameStep (some 1) ⟨fun _ => clearMat, none, some 0⟩).mats 0 = clearMat :=
  frameTick_keeps_selected (some 1) ⟨fun _ => clearMat, none, some 0⟩ 0 rfl

/-- C6: in every state reachable by frame ticks and taps/clicks, an object
that is both hovered and selected carries exactly the selected-intensity
highlight. -/
theorem selRun_hovered_selected (m0 : ℕ → Mat) (evs : List SEvent) (i : ℕ)
    (_hh : (selRun m0 evs).hovered = some i) (hs : (selRun m0 evs).selected = some i) :
    (selRun m0 evs).mats i = selMat :=
  selRun_inv m0 evs i hs

/-- Witness for C6: hover object 0, then tap to select it. -/
theorem selRun_hovered_selected_witness :
    (selRun (fun _ => clearMat) [SEvent.frame (some 0), SEvent.tap]).mats 0 = selMat :=
  selRun_hovered_selected (fun _ => clearMat) [SEvent.frame (some 0), SEvent.tap] 0 rfl rfl

/-- C2: after every sequence of joystick events the DirectionVector has
magnitude at most 1, and it is exactly (0, 0) whenever no pointer is
active. -/
theorem jrun_vector_bounded (R : ℝ) (evs : List JEvent) :
    len2 (jrun R evs).vec ≤ 1 ∧
      ((jrun R evs).pointerId = none → (jrun R evs).vec = (0, 0)) := by
  obtain ⟨h1, h2⟩ := jrun_inv R evs
  refine ⟨?_, fun _ => h2⟩
  rw [h2]
  simp [len2]

/-- Witness for C2 on the empty event sequence. -/
theorem jrun_vector_bounded_witness :
    len2 (jrun 1 []).vec ≤ 1 ∧ (jrun 1 []).vec = (0, 0) :=
  ⟨(jrun_vector_bounded 1 []).1, (jrun_vector_bounded 1 []).2 rfl⟩

/-- C3: when the movement step runs with a nonzero DirectionVector, the
camera position is displaced by `-v.y * speed` along the y-zeroed
renormalized forward direction plus `v.x * speed` along the renormalized
cross of up and forward, and then the height is clamped to the floor. -/
theorem frameMove_spec_eq (pos up dir : Vec3) (v : ℝ × ℝ) (hv : v ≠ (0, 0)) :
    frameMove pos up dir v =
      clampFloorSpec
        (addScaled (addScaled pos (forwardDirSpec dir) (-v.2 * moveSpeed))
          (rightDirSpec up dir) (v.1 * moveSpeed)) := by
  have h' : v.1 ≠ 0 ∨ v.2 ≠ 0 := by
    by_contra hc
    push_neg at hc
    exact hv (Prod.ext_iff.mpr ⟨hc.1, hc.2⟩)
  rw [frameMove, if_pos h']
  rfl

/-- Witness for C3 at a concrete camera pose and vector. -/
theorem frameMove_spec_eq_witness :
    frameMove ⟨0, 0, 0⟩ ⟨0, 1, 0⟩ ⟨0, 0, 1⟩ (1, 0) =
      clampFloorSpec
        (addScaled (addScaled ⟨0, 0, 0⟩ (forwardDirSpec ⟨0, 0, 1⟩) (-0 * moveSpeed))
          (rightDirSpec ⟨0, 1, 0⟩ ⟨0, 0, 1⟩) (1 * moveSpeed)) :=
  frameMove_spec_eq ⟨0, 0, 0⟩ ⟨0, 1, 0⟩ ⟨0, 0, 1⟩ (1, 0) (by norm_num [Prod.ext_iff])

/-- C1: when a move event of the active pointer carries a raw offset longer
than the radius `R`, the stored offset has length exactly `R`, the same
angle as the raw offset, the polar-clamped components, and the stored
DirectionVector is the stored offset divided componentwise by `R`. -/
theorem touchmove_polar_clamp (R : ℝ) (s : JoyState) (t : Touch)
    (hR : 0 < R) (hid : s.pointerId = some t.id)
    (hdist : R < len2 (t.x - s.center.1, t.y - s.center.2)) :
    len2 (touchmove R [t] s).pos = R ∧
    atan2 (touchmove R [t] s).pos.2 (touchmove R [t] s).pos.1 =
      atan2 (t.y - s.center.2) (t.x - s.center.1) ∧
    (touchmove R [t] s).pos =
      ((t.x - s.center.1) / len2 (t.x - s.center.1, t.y - s.center.2) * R,
        (t.y - s.center.2) / len2 (t.x - s.center.1, t.y - s.center.2) * R) ∧
    (touchmove R [t] s).vec =
      ((touchmove R [t] s).pos.1 / R, (touchmove R [t] s).pos.2 / R) := by
  set dx := t.x - s.center.1 with hdx
  set dy := t.y - s.center.2 with hdy
  have hstep : touchmove R [t] s = applyMove R t s := by
    simp [touchmove, hid]
  set D := Real.sqrt (dx * dx + dy * dy) with hD
  have hlen : len2 (dx, dy) = D := rfl
  have hDR : R < D := hlen ▸ hdist
  have hD0 : 0 < D := lt_trans hR hDR
  have hsum : 0 < dx * dx + dy * dy := Real.sqrt_pos.mp (hD ▸ hD0)
  set z : ℂ := ⟨dx, dy⟩ with hz
  have hz0 : z ≠ 0 := by
    intro h0
    have h0x : dx = 0 := by simpa [hz] using congrArg Complex.re h0
    have h0y : dy = 0 := by simpa [hz] using congrArg Complex.im h0
    rw [h0x, h0y] at hsum
    norm_num at hsum
  have habs : Complex.abs z = D := by
    rw [hD, Complex.abs_apply, hz, Complex.normSq_mk]
  have hcos : Real.cos (atan2 dy dx) = dx / D := by
    rw [show atan2 dy dx = Complex.arg z from rfl, Complex.cos_arg hz0, habs]
  have hsin : Real.sin (atan2 dy dx) = dy / D := by
    rw [show atan2 dy dx = Complex.arg z from rfl, Complex.sin_arg, habs]
  have hpos : (applyMove R t s).pos =
      (Real.cos (atan2 dy dx) * R, Real.sin (atan2 dy dx) * R) := by
    simp only [applyMove]
    rw [if_pos hDR, if_pos hDR]
  have hposx : (applyMove R t s).pos = (dx / D * R, dy / D * R) := by
    rw [hpos, hcos, hsin]
  refine ⟨?_, ?_, ?_, ?_⟩
  · rw [hstep, hpos]
    show Real.sqrt _ = R
    rw [show Real.cos (atan2 dy dx) * R * (Real.cos (atan2 dy dx) * R) +
        Real.sin (atan2 dy dx) * R * (Real.sin (atan2 dy dx) * R) = R ^ 2 from by
      nlinarith [Real.sin_sq_add_cos_sq (atan2 dy dx)]]
    exact Real.sqrt_sq hR.le
  · rw [hstep, hposx]
    show Complex.arg ⟨dx / D * R, dy / D * R⟩ = Complex.arg z
    have hzeq : (⟨dx / D * R, dy / D * R⟩ : ℂ) = ((R / D : ℝ) : ℂ) * z := by
      rw [Complex.ext_iff]
      constructor
      · simp [hz, Complex.mul_re]
        ring
      · simp [hz, Complex.mul_im]
        ring
    rw [hzeq, Complex.arg_real_mul z (div_pos hR hD0)]
  · rw [hstep, hlen, hposx]
  · rw [hstep]
    rfl

/-- Witness for C1: the spec scenario, a raw offset of length `2R` at 45°,
whose stored DirectionVector is (0.707, 0.707) within 0.001. -/
theorem touchmove_polar_clamp_witness :
    len2 (touchmove 1 [joyTouch45] joyActive).pos = 1 ∧
    |(touchmove 1 [joyTouch45] joyActive).vec.1 - 0.707| < 1 / 1000 ∧
    |(touchmove 1 [joyTouch45] joyActive).vec.2 - 0.707| < 1 / 1000 := by
  have hs2 : Real.sqrt 2 * Real.sqrt 2 = 2 := Real.mul_self_sqrt (by norm_num)
  have hdx : joyTouch45.x - joyActive.center.1 = Real.sqrt 2 := by
    simp [joyTouch45, joyActive]
  have hdy : joyTouch45.y - joyActive.center.2 = Real.sqrt 2 := by
    simp [joyTouch45, joyActive]
  have hlen4 :
      len2 (joyTouch45.x - joyActive.center.1, joyTouch45.y - joyActive.center.2) = 2 := by
    rw [show len2 (joyTouch45.x - joyActive.center.1, joyTouch45.y - joyActive.center.2) =
        Real.sqrt ((joyTouch45.x - joyActive.center.1) * (joyTouch45.x - joyActive.center.1) +
          (joyTouch45.y - joyActive.center.2) * (joyTouch45.y - joyActive.center.2)) from rfl]
    rw [hdx, hdy, show Real.sqrt 2 * Real.sqrt 2 + Real.sqrt 2 * Real.sqrt 2 = (4 : ℝ) from by
      rw [hs2]; norm_num]
    rw [show (4 : ℝ) = 2 ^ 2 by norm_num, Real.sqrt_sq (by norm_num : (0:ℝ) ≤ 2)]
  have hdist : (1 : ℝ) <
      len2 (joyTouch45.x - joyActive.center.1, joyTouch45.y - joyActive.center.2) := by
    rw [hlen4]
    norm_num
  obtain ⟨hl, -, hp, hv⟩ :=
    touchmove_polar_clamp 1 joyActive joyTouch45 one_pos rfl hdist
  rw [hlen4, hdx, hdy] at hp
  have hv1 : (touchmove 1 [joyTouch45] joyActive).vec.1 = Real.sqrt 2 / 2 * 1 / 1 := by
    rw [hv, hp]
  have hv2 : (touchmove 1 [joyTouch45] joyActive).vec.2 = Real.sqrt 2 / 2 * 1 / 1 := by
    rw [hv, hp]
  have hlb : 1.414 < Real.sqrt 2 := by
    rw [show (1.414 : ℝ) = √(1.414 ^ 2) from
      (Real.sqrt_sq (by norm_num : (0:ℝ) ≤ 1.414)).symm]
    exact Real.sqrt_lt_sqrt (by norm_num) (by norm_num)
  have hub : Real.sqrt 2 < 1.415 := by
    rw [show (1.415 : ℝ) = √(1.415 ^ 2) from
      (Real.sqrt_sq (by norm_num : (0:ℝ) ≤ 1.415)).symm]
    exact Real.sqrt_lt_sqrt (by norm_num) (by norm_num)
  refine ⟨hl, ?_, ?_⟩
  · rw [hv1, abs_sub_lt_iff]
    constructor <;> linarith
  · rw [hv2, abs_sub_lt_iff]
    constructor <;> linarith

end Kyson
